import Mathlib

/-!
Verification development for the IAPV multi-agent kinetic simulation core.

The definitions below are a shallow embedding of the C++ sources
`src/cpp/common/math_utils.hpp` (vector kernel, agent, memory store),
`src/cpp/locomotion/steering_behaviors.cpp` (steering behaviors and the
steering controller) and `src/cpp/crowds/flocking.cpp` (boid, crowd
simulation, emergent behavior detector).  C++ `float` values are modelled
as real numbers; machine-level rounding is outside the model, but the
code's branch structure, accumulation order and constants are preserved.
-/

noncomputable section


/-- `Vector3D` from `math_utils.hpp`: three float components. -/
structure Vector3D where
  x : ℝ
  y : ℝ
  z : ℝ

/-- Component-wise addition, `Vector3D::operator+`. -/
def Vector3D.add (a b : Vector3D) : Vector3D :=
  ⟨a.x + b.x, a.y + b.y, a.z + b.z⟩

instance : Add Vector3D := ⟨Vector3D.add⟩

/-- Component-wise subtraction, `Vector3D::operator-`. -/
def Vector3D.sub (a b : Vector3D) : Vector3D :=
  ⟨a.x - b.x, a.y - b.y, a.z - b.z⟩

instance : Sub Vector3D := ⟨Vector3D.sub⟩

/-- Scalar multiplication, `Vector3D::operator*(float)`. -/
def Vector3D.mul (a : Vector3D) (scalar : ℝ) : Vector3D :=
  ⟨a.x * scalar, a.y * scalar, a.z * scalar⟩

/-- `Vector3D::magnitude`: `sqrt(x*x + y*y + z*z)`. -/
def Vector3D.magnitude (v : Vector3D) : ℝ :=
  Real.sqrt (v.x * v.x + v.y * v.y + v.z * v.z)

/-- `Vector3D::normalized`: components divided by the magnitude when it is
positive, the zero vector otherwise. -/
def Vector3D.normalized (v : Vector3D) : Vector3D :=
  if v.magnitude > 0 then ⟨v.x / v.magnitude, v.y / v.magnitude, v.z / v.magnitude⟩
  else ⟨0, 0, 0⟩

/-- `Vector3D::dot`. -/
def Vector3D.dot (a b : Vector3D) : ℝ :=
  a.x * b.x + a.y * b.y + a.z * b.z

/-- `Vector2D` from `math_utils.hpp`. -/
structure Vector2D where
  x : ℝ
  y : ℝ

/-- `Vector2D::magnitude`. -/
def Vector2D.magnitude (v : Vector2D) : ℝ :=
  Real.sqrt (v.x * v.x + v.y * v.y)

/-- `Vector2D::normalized`. -/
def Vector2D.normalized (v : Vector2D) : Vector2D :=
  if v.magnitude > 0 then ⟨v.x / v.magnitude, v.y / v.magnitude⟩
  else ⟨0, 0⟩

/-- `SteeringController::truncate`: rescale to exactly `maxLength` when the
magnitude exceeds it, otherwise unchanged. -/
def truncate (vector : Vector3D) (maxLength : ℝ) : Vector3D :=
  if vector.magnitude > maxLength then (vector.normalized).mul maxLength
  else vector

/-- The kinematic part of `Agent` (`agent.hpp`) read and written by the
steering layer: `position_` and `velocity_`. -/
structure Agent where
  position : Vector3D
  velocity : Vector3D

instance : DecidableEq Agent := fun _ _ => Classical.dec _

/-- One entry of `SteeringController::behaviors_`: the `enabled` flag and
`weight` of the behavior, together with the vector its virtual
`calculate(agent, neighbors)` returns at this call. -/
structure Behavior where
  enabled : Bool
  weight : ℝ
  force : Vector3D

/-- The force-composition loop of `SteeringController::update`: sum
`calculate(...) * weight` over the enabled behaviors. -/
def composeForce (behaviors : List Behavior) : Vector3D :=
  behaviors.foldl
    (fun totalForce b =>
      if b.enabled then totalForce + b.force.mul b.weight else totalForce)
    ⟨0, 0, 0⟩

/-- `SteeringController::update`: compose the behavior forces, truncate to
`maxForce_`, integrate the velocity, truncate it to `maxSpeed_`, then
integrate the position. -/
def steeringUpdate (maxSpeed maxForce deltaTime : ℝ)
    (behaviors : List Behavior) (agent : Agent) : Agent :=
  let totalForce := truncate (composeForce behaviors) maxForce
  let newVelocity := truncate (agent.velocity + totalForce.mul deltaTime) maxSpeed
  { position := agent.position + newVelocity.mul deltaTime
    velocity := newVelocity }

/-- The loop body of `SeparationBehavior::calculate`: skip the agent
itself, then accumulate the inverse-distance-weighted repulsion and the
count for neighbors with `0 < distance < separationRadius_`. -/
def sepStepCtrl (separationRadius : ℝ) (agent : Agent)
    (acc : Vector3D × ℕ) (n : Agent) : Vector3D × ℕ :=
  if n = agent then acc
  else
    let distance := (agent.position - n.position).magnitude
    if distance > 0 ∧ distance < separationRadius then
      (acc.1 + ((agent.position - n.position).normalized).mul (1 / distance),
       acc.2 + 1)
    else acc

/-- `SeparationBehavior::calculate` (`steering_behaviors.cpp`): accumulate
`normalize(position - neighbor.position) / distance` over distinct
neighbors with `0 < distance < separationRadius_`, average, renormalize to
magnitude 10, and subtract the agent's velocity when any neighbor
qualified.  C++ pointer identity `neighbor == agent` is modelled as state
equality; a state-equal neighbor is at distance 0 and is skipped by the
`distance > 0` guard in either reading. -/
def SeparationBehavior.calculate (separationRadius : ℝ)
    (agent : Agent) (neighbors : List Agent) : Vector3D :=
  let step := neighbors.foldl (sepStepCtrl separationRadius agent) (⟨0, 0, 0⟩, 0)
  if step.2 > 0 then
    (((step.1.mul (1 / (step.2 : ℝ))).normalized).mul 10) - agent.velocity
  else step.1

/-- An obstacle registered with `AvoidanceBehavior::addObstacle`. -/
structure Obstacle where
  position : Vector3D
  radius : ℝ

/-- `AvoidanceBehavior::calculate`: inverse-distance repulsion from nearby
agents (guarded by `distance > 0`) and from registered obstacles (no such
guard); if the net repulsion is non-zero, renormalize to magnitude 10 and
subtract the agent's velocity. -/
def AvoidanceBehavior.calculate (avoidanceRadius : ℝ) (obstacles : List Obstacle)
    (agent : Agent) (neighbors : List Agent) : Vector3D :=
  let steer1 := neighbors.foldl
    (fun steer n =>
      if n = agent then steer
      else
        let distance := (agent.position - n.position).magnitude
        if distance > 0 ∧ distance < avoidanceRadius then
          steer + ((agent.position - n.position).normalized).mul
            (avoidanceRadius / distance)
        else steer)
    ⟨0, 0, 0⟩
  let steer2 := obstacles.foldl
    (fun steer o =>
      let distance := (agent.position - o.position).magnitude
      let totalRadius := o.radius + 1
      if distance < totalRadius + avoidanceRadius then
        steer + ((agent.position - o.position).normalized).mul
          ((totalRadius + avoidanceRadius) / distance)
      else steer)
    steer1
  if steer2.magnitude > 0 then ((steer2.normalized).mul 10) - agent.velocity
  else steer2

/-- The obstacle loop of `AvoidanceBehavior::calculate` evaluates
`(totalRadius + avoidanceRadius) / distance` whenever
`distance < totalRadius + avoidanceRadius`; this predicate records that
some registered obstacle makes that evaluated divisor zero (a division by
zero, which in the C++ float semantics produces an infinite quotient and
then NaN components). -/
def avoidanceDividesByZero (avoidanceRadius : ℝ) (obstacles : List Obstacle)
    (agent : Agent) : Prop :=
  ∃ o ∈ obstacles,
    (agent.position - o.position).magnitude = 0 ∧
    (agent.position - o.position).magnitude < (o.radius + 1) + avoidanceRadius

/-- A `Boid` (`flocking.hpp`): an agent plus the flocking weights and radii,
with the header's default member initializers. -/
structure BoidState where
  position : Vector3D
  velocity : Vector3D
  separationWeight : ℝ := 1.5
  alignmentWeight : ℝ := 1.0
  cohesionWeight : ℝ := 1.0
  separationRadius : ℝ := 2.0
  alignmentRadius : ℝ := 4.0
  cohesionRadius : ℝ := 6.0

instance : Inhabited BoidState := ⟨{ position := ⟨0, 0, 0⟩, velocity := ⟨0, 0, 0⟩ }⟩

/-- The loop body of `Boid::calculateSeparation` (no self test: the
snapshot never contains the boid itself). -/
def sepStepBoid (b : BoidState) (acc : Vector3D × ℕ) (n : BoidState) : Vector3D × ℕ :=
  let distance := (b.position - n.position).magnitude
  if distance > 0 ∧ distance < b.separationRadius then
    (acc.1 + ((b.position - n.position).normalized).mul (1 / distance),
     acc.2 + 1)
  else acc

/-- `Boid::calculateSeparation` (`flocking.cpp`): same accumulation as the
controller's separation behavior, but over the boid's neighbor snapshot and
without the final velocity subtraction. -/
def Boid.calculateSeparation (b : BoidState) (neighbors : List BoidState) : Vector3D :=
  let step := neighbors.foldl (sepStepBoid b) (⟨0, 0, 0⟩, 0)
  if step.2 > 0 then ((step.1.mul (1 / (step.2 : ℝ))).normalized).mul 10
  else step.1

/-- `Boid::calculateAlignment`: average qualifying neighbor velocities,
renormalize to magnitude 10, subtract own velocity; zero with no
qualifying neighbor. -/
def Boid.calculateAlignment (b : BoidState) (neighbors : List BoidState) : Vector3D :=
  let step := neighbors.foldl
    (fun (acc : Vector3D × ℕ) n =>
      let distance := (b.position - n.position).magnitude
      if distance > 0 ∧ distance < b.alignmentRadius then
        (acc.1 + n.velocity, acc.2 + 1)
      else acc)
    (⟨0, 0, 0⟩, 0)
  if step.2 > 0 then
    (((step.1.mul (1 / (step.2 : ℝ))).normalized).mul 10) - b.velocity
  else ⟨0, 0, 0⟩

/-- `Boid::calculateCohesion`: average qualifying neighbor positions, steer
toward the centroid at magnitude 10, subtract own velocity; zero with no
qualifying neighbor. -/
def Boid.calculateCohesion (b : BoidState) (neighbors : List BoidState) : Vector3D :=
  let step := neighbors.foldl
    (fun (acc : Vector3D × ℕ) n =>
      let distance := (b.position - n.position).magnitude
      if distance > 0 ∧ distance < b.cohesionRadius then
        (acc.1 + n.position, acc.2 + 1)
      else acc)
    (⟨0, 0, 0⟩, 0)
  if step.2 > 0 then
    ((((step.1.mul (1 / (step.2 : ℝ))) - b.position).normalized).mul 10) - b.velocity
  else ⟨0, 0, 0⟩

/-- `Boid::update`: weighted sum of the three flocking forces, velocity
integration with an inline clamp to the fixed `maxSpeed = 8.0`, then
position integration.  The neighbor states are the current states of the
boids the snapshot points at. -/
def boidUpdate (b : BoidState) (neighbors : List BoidState) (deltaTime : ℝ) : BoidState :=
  let separation := (Boid.calculateSeparation b neighbors).mul b.separationWeight
  let alignment := (Boid.calculateAlignment b neighbors).mul b.alignmentWeight
  let cohesion := (Boid.calculateCohesion b neighbors).mul b.cohesionWeight
  let totalForce := separation + alignment + cohesion
  let newVelocity0 := b.velocity + totalForce.mul deltaTime
  let newVelocity :=
    if newVelocity0.magnitude > 8 then (newVelocity0.normalized).mul 8
    else newVelocity0
  { b with
    velocity := newVelocity
    position := b.position + newVelocity.mul deltaTime }

/-- `CrowdSimulation` (`flocking.hpp`): the boid population, the shared
neighbor radius (default 10) and the axis-aligned boundary box
(default corners (±50, ±50, ±50)). -/
structure CrowdState where
  boids : List BoidState
  neighborRadius : ℝ := 10.0
  boundaryMin : Vector3D := ⟨-50, -50, -50⟩
  boundaryMax : Vector3D := ⟨50, 50, 50⟩

/-- `CrowdSimulation::findNeighbors`, by population index: every other boid
(pointer inequality becomes index inequality) whose distance is at most
`neighborRadius_`. -/
def neighborList (neighborRadius : ℝ) (boids : List BoidState) (i : ℕ) : List ℕ :=
  (List.range boids.length).filter fun j =>
    decide (j ≠ i ∧
      ((boids.getD i default).position - (boids.getD j default).position).magnitude
        ≤ neighborRadius)

/-- The neighbor-rebuild phase of `CrowdSimulation::update`: one snapshot
per boid, all computed from the pre-tick positions before any boid moves. -/
def crowdSnapshots (c : CrowdState) : List (List ℕ) :=
  (List.range c.boids.length).map fun i => neighborList c.neighborRadius c.boids i

/-- The boundary-force accumulation of
`CrowdSimulation::applyBoundaryForces`: `margin = 5`, `forceStrength = 20`;
`+20` on an axis strictly inside the margin at the minimum boundary, `-20`
strictly inside the margin at the maximum boundary. -/
def boundaryForce (bmin bmax position : Vector3D) : Vector3D :=
  let margin : ℝ := 5
  let forceStrength : ℝ := 20
  let fx1 := if position.x < bmin.x + margin then (0:ℝ) + forceStrength else 0
  let fx2 := if position.x > bmax.x - margin then fx1 - forceStrength else fx1
  let fy1 := if position.y < bmin.y + margin then (0:ℝ) + forceStrength else 0
  let fy2 := if position.y > bmax.y - margin then fy1 - forceStrength else fy1
  let fz1 := if position.z < bmin.z + margin then (0:ℝ) + forceStrength else 0
  let fz2 := if position.z > bmax.z - margin then fz1 - forceStrength else fz1
  ⟨fx2, fy2, fz2⟩

/-- `CrowdSimulation::applyBoundaryForces`: when the combined boundary
force is non-zero, add it to the velocity scaled by the hardcoded `0.016`
(not the tick's `deltaTime`). -/
def applyBoundaryForces (bmin bmax : Vector3D) (b : BoidState) : BoidState :=
  let force := boundaryForce bmin bmax b.position
  if force.magnitude > 0 then { b with velocity := b.velocity + force.mul 0.016 }
  else b

/-- `CrowdSimulation::update`: rebuild every snapshot from the pre-tick
positions, then for each boid in order run `Boid::update` (reading the
current states of its snapshot's boids through the stored pointers) and
`applyBoundaryForces`. -/
def crowdUpdate (c : CrowdState) (deltaTime : ℝ) : CrowdState :=
  let snapshots := crowdSnapshots c
  let moved := (List.range c.boids.length).foldl
    (fun (bs : List BoidState) i =>
      let nbrs := (snapshots.getD i []).map fun j => bs.getD j default
      let b1 := boidUpdate (bs.getD i default) nbrs deltaTime
      let b2 := applyBoundaryForces c.boundaryMin c.boundaryMax b1
      bs.set i b2)
    c.boids
  { c with boids := moved }

/-- The `avgVelocity` local of
`EmergentBehaviorDetector::calculateAlignmentLevel`. -/
def detectorAvgVelocity (boids : List BoidState) : Vector3D :=
  (boids.foldl (fun (acc : Vector3D) b => acc + b.velocity) ⟨0, 0, 0⟩).mul
    (1 / (boids.length : ℝ))

/-- The `totalAlignment` accumulation of `calculateAlignmentLevel`:
boids with zero velocity (or a zero mean velocity) are skipped from the
sum but still counted in the divisor. -/
def detectorTotalAlignment (boids : List BoidState) : ℝ :=
  boids.foldl
    (fun (acc : ℝ) b =>
      if b.velocity.magnitude > 0 ∧ (detectorAvgVelocity boids).magnitude > 0 then
        acc + (((b.velocity.normalized).dot ((detectorAvgVelocity boids).normalized) + 1) / 2)
      else acc)
    0

/-- `EmergentBehaviorDetector::calculateAlignmentLevel`: mean over all
boids of `(dot of normalized velocity and normalized mean velocity + 1)/2`. -/
def calculateAlignmentLevel (boids : List BoidState) : ℝ :=
  if boids.isEmpty then 0
  else detectorTotalAlignment boids / (boids.length : ℝ)

/-- The `center` (centroid) local of
`EmergentBehaviorDetector::calculateCohesionLevel`. -/
def detectorCenter (boids : List BoidState) : Vector3D :=
  (boids.foldl (fun (acc : Vector3D) b => acc + b.position) ⟨0, 0, 0⟩).mul
    (1 / (boids.length : ℝ))

/-- The `avgDistance` local of `calculateCohesionLevel`. -/
def detectorAvgDistance (boids : List BoidState) : ℝ :=
  (boids.foldl (fun (acc : ℝ) b => acc + (b.position - detectorCenter boids).magnitude) 0) /
    (boids.length : ℝ)

/-- `EmergentBehaviorDetector::calculateCohesionLevel`:
`1 / (1 + avgDistanceToCentroid * 0.1)`. -/
def calculateCohesionLevel (boids : List BoidState) : ℝ :=
  if boids.isEmpty then 0
  else 1 / (1 + detectorAvgDistance boids * 0.1)

/-- The `avgSpeed` local of
`EmergentBehaviorDetector::calculateVelocityVariance`. -/
def detectorAvgSpeed (boids : List BoidState) : ℝ :=
  (boids.foldl (fun (acc : ℝ) b => acc + b.velocity.magnitude) 0) /
    (boids.length : ℝ)

/-- The `variance` local of `calculateVelocityVariance`. -/
def detectorVariance (boids : List BoidState) : ℝ :=
  (boids.foldl
    (fun (acc : ℝ) b =>
      acc + (b.velocity.magnitude - detectorAvgSpeed boids) *
        (b.velocity.magnitude - detectorAvgSpeed boids))
    0) / (boids.length : ℝ)

/-- `EmergentBehaviorDetector::calculateVelocityVariance`:
`sqrt(variance of speed) / (meanSpeed + 0.1)`. -/
def calculateVelocityVariance (boids : List BoidState) : ℝ :=
  if boids.isEmpty then 0
  else Real.sqrt (detectorVariance boids) / (detectorAvgSpeed boids + 0.1)

/-- A value held in the `std::any` slots of `Agent::memory_`.  The
constructors cover the payload types the repository stores through
`setMemory` (ints, floats, vectors, strings, booleans). -/
inductive MemValue where
  | intVal : Int → MemValue
  | floatVal : ℝ → MemValue
  | vec3Val : Vector3D → MemValue
  | strVal : String → MemValue
  | boolVal : Bool → MemValue

/-- The template argument `T` of `Agent::getMemory<T>`. -/
inductive MemType where
  | tInt
  | tFloat
  | tVec3
  | tStr
  | tBool
deriving DecidableEq

/-- The Lean type denoted by a `MemType` tag. -/
def MemType.denote : MemType → Type
  | .tInt => Int
  | .tFloat => ℝ
  | .tVec3 => Vector3D
  | .tStr => String
  | .tBool => Bool

/-- The dynamic type of a stored value. -/
def MemValue.typeOf : MemValue → MemType
  | .intVal _ => .tInt
  | .floatVal _ => .tFloat
  | .vec3Val _ => .tVec3
  | .strVal _ => .tStr
  | .boolVal _ => .tBool

/-- `std::any_cast<T>` on a stored value: the payload when the dynamic type
is exactly `T`, otherwise the `bad_any_cast` outcome, modelled as `none`. -/
def anyCast : (t : MemType) → MemValue → Option t.denote
  | .tInt, .intVal n => some n
  | .tFloat, .floatVal r => some r
  | .tVec3, .vec3Val v => some v
  | .tStr, .strVal s => some s
  | .tBool, .boolVal b => some b
  | .tInt, _ => none
  | .tFloat, _ => none
  | .tVec3, _ => none
  | .tStr, _ => none
  | .tBool, _ => none

/-- `Agent::memory_`: a string-keyed map, modelled as an association list
with the `std::map` uniqueness of keys left implicit (lookup takes the
first match). -/
abbrev Memory := List (String × MemValue)

/-- `Agent::getMemory<T>(key, defaultValue)`: look the key up; on a hit try
`std::any_cast<T>` and fall back to the default when the cast throws; on a
miss return the default.  The member is `const`: it is a pure function of
the store. -/
def Agent.getMemory (t : MemType) (memory : Memory) (key : String)
    (defaultValue : t.denote) : t.denote :=
  match List.lookup key memory with
  | some stored =>
    match anyCast t stored with
    | some v => v
    | none => defaultValue
  | none => defaultValue


/-- Concrete two-boid population used to exercise the snapshot symmetry. -/
def twoBoidCrowd : CrowdState :=
  { boids := [{ position := ⟨0, 0, 0⟩, velocity := ⟨0, 0, 0⟩ },
              { position := ⟨3, 0, 0⟩, velocity := ⟨0, 0, 0⟩ }] }

/-- Two distinct boids occupying the same position. -/
def coincidentPair : List BoidState :=
  [{ position := ⟨0, 0, 0⟩, velocity := ⟨0, 0, 0⟩ },
   { position := ⟨0, 0, 0⟩, velocity := ⟨1, 0, 0⟩ }]

/-- A single stationary boid at exactly `boundaryMin.x + margin` (the
default boundary corner is -50 and the containment margin is 5). -/
def exactMarginCrowd : CrowdState :=
  { boids := [{ position := ⟨-45, 0, 0⟩, velocity := ⟨0, 0, 0⟩ }] }

/-- A single stationary boid strictly inside the containment margin. -/
def insideMarginCrowd : CrowdState :=
  { boids := [{ position := ⟨-48, 0, 0⟩, velocity := ⟨0, 0, 0⟩ }] }

/-- Three boids whose speeds are 0, 0 and 30. -/
def unevenSpeedBoids : List BoidState :=
  [{ position := ⟨0, 0, 0⟩, velocity := ⟨0, 0, 0⟩ },
   { position := ⟨1, 0, 0⟩, velocity := ⟨0, 0, 0⟩ },
   { position := ⟨2, 0, 0⟩, velocity := ⟨30, 0, 0⟩ }]

/-- A `BoidState` carrying an agent's kinematic state and a given
separation radius (the other members keep the header defaults). -/
def Agent.asBoid (a : Agent) (separationRadius : ℝ) : BoidState :=
  { position := a.position, velocity := a.velocity, separationRadius := separationRadius }

/-- A neighbor qualifies for the separation accumulation: strictly
positive distance strictly below the separation radius. -/
def qualifiesForSeparation (separationRadius : ℝ) (agent n : Agent) : Prop :=
  0 < (agent.position - n.position).magnitude ∧
  (agent.position - n.position).magnitude < separationRadius

@[ext] theorem Vector3D.ext3 (a b : Vector3D)
    (hx : a.x = b.x) (hy : a.y = b.y) (hz : a.z = b.z) : a = b := by
  cases a; cases b; simp_all

@[simp] theorem Vector3D.add_x (a b : Vector3D) : (a + b).x = a.x + b.x := rfl
@[simp] theorem Vector3D.add_y (a b : Vector3D) : (a + b).y = a.y + b.y := rfl
@[simp] theorem Vector3D.add_z (a b : Vector3D) : (a + b).z = a.z + b.z := rfl
@[simp] theorem Vector3D.sub_x (a b : Vector3D) : (a - b).x = a.x - b.x := rfl
@[simp] theorem Vector3D.sub_y (a b : Vector3D) : (a - b).y = a.y - b.y := rfl
@[simp] theorem Vector3D.sub_z (a b : Vector3D) : (a - b).z = a.z - b.z := rfl
@[simp] theorem Vector3D.mul_x (a : Vector3D) (s : ℝ) : (a.mul s).x = a.x * s := rfl
@[simp] theorem Vector3D.mul_y (a : Vector3D) (s : ℝ) : (a.mul s).y = a.y * s := rfl
@[simp] theorem Vector3D.mul_z (a : Vector3D) (s : ℝ) : (a.mul s).z = a.z * s := rfl

@[simp] theorem Vector3D.mk_add_mk (a b c d e f : ℝ) :
    (⟨a, b, c⟩ + ⟨d, e, f⟩ : Vector3D) = ⟨a + d, b + e, c + f⟩ := rfl

@[simp] theorem Vector3D.mk_sub_mk (a b c d e f : ℝ) :
    (⟨a, b, c⟩ - ⟨d, e, f⟩ : Vector3D) = ⟨a - d, b - e, c - f⟩ := rfl

@[simp] theorem Vector3D.mk_mul (a b c s : ℝ) :
    (⟨a, b, c⟩ : Vector3D).mul s = ⟨a * s, b * s, c * s⟩ := rfl

theorem Vector3D.magnitude_mk (a b c : ℝ) :
    (⟨a, b, c⟩ : Vector3D).magnitude = Real.sqrt (a * a + b * b + c * c) := rfl

@[simp] theorem Vector3D.magnitude_zero : (⟨0, 0, 0⟩ : Vector3D).magnitude = 0 := by
  rw [Vector3D.magnitude_mk]
  norm_num

@[simp] theorem Vector3D.add_zero_vec (v : Vector3D) : v + ⟨0, 0, 0⟩ = v := by
  ext <;> simp

@[simp] theorem Vector3D.zero_vec_add (v : Vector3D) : (⟨0, 0, 0⟩ : Vector3D) + v = v := by
  ext <;> simp

@[simp] theorem Vector3D.zero_vec_mul (s : ℝ) : (⟨0, 0, 0⟩ : Vector3D).mul s = ⟨0, 0, 0⟩ := by
  ext <;> simp

@[simp] theorem Vector3D.sub_self_vec (v : Vector3D) : v - v = ⟨0, 0, 0⟩ := by
  ext <;> simp

theorem Vector3D.magnitude_nonneg (v : Vector3D) : 0 ≤ v.magnitude :=
  Real.sqrt_nonneg _

theorem Vector3D.magnitude_sub_comm (a b : Vector3D) :
    (a - b).magnitude = (b - a).magnitude := by
  cases a; cases b
  simp only [Vector3D.mk_sub_mk, Vector3D.magnitude_mk]
  ring_nf

theorem Vector3D.magnitude_mul (v : Vector3D) (s : ℝ) :
    (v.mul s).magnitude = |s| * v.magnitude := by
  cases v with
  | mk a b c =>
    simp only [Vector3D.mk_mul, Vector3D.magnitude_mk]
    rw [show a * s * (a * s) + b * s * (b * s) + c * s * (c * s)
        = s ^ 2 * (a * a + b * b + c * c) by ring]
    rw [Real.sqrt_mul (sq_nonneg s), Real.sqrt_sq_eq_abs]

theorem Vector3D.normalized_of_pos (v : Vector3D) (h : 0 < v.magnitude) :
    v.normalized = v.mul (1 / v.magnitude) := by
  rw [Vector3D.normalized, if_pos h]
  ext <;> simp <;> ring

theorem Vector3D.normalized_of_not_pos (v : Vector3D) (h : ¬0 < v.magnitude) :
    v.normalized = ⟨0, 0, 0⟩ := by
  rw [Vector3D.normalized, if_neg h]

theorem Vector3D.magnitude_normalized (v : Vector3D) (h : 0 < v.magnitude) :
    v.normalized.magnitude = 1 := by
  rw [Vector3D.normalized_of_pos v h, Vector3D.magnitude_mul,
    abs_of_nonneg (by positivity : (0:ℝ) ≤ 1 / v.magnitude)]
  field_simp

/-- Magnitude of a renormalize-and-rescale result: `|v.normalized * s| = s`
for `0 < |v|` and `0 ≤ s`. -/
theorem Vector3D.magnitude_normalized_mul (v : Vector3D) (s : ℝ)
    (h : 0 < v.magnitude) (hs : 0 ≤ s) :
    ((v.normalized).mul s).magnitude = s := by
  rw [Vector3D.magnitude_mul, Vector3D.magnitude_normalized v h,
    abs_of_nonneg hs, mul_one]

theorem Vector3D.magnitude_mk_x (a : ℝ) : (⟨a, 0, 0⟩ : Vector3D).magnitude = |a| := by
  rw [Vector3D.magnitude_mk, show a * a + 0 * 0 + 0 * 0 = a ^ 2 by ring,
    Real.sqrt_sq_eq_abs]

theorem Vector3D.normalized_mk_x (a : ℝ) (h : 0 < a) :
    (⟨a, 0, 0⟩ : Vector3D).normalized = ⟨1, 0, 0⟩ := by
  have hm : (⟨a, 0, 0⟩ : Vector3D).magnitude = a := by
    rw [Vector3D.magnitude_mk_x, abs_of_pos h]
  rw [Vector3D.normalized, if_pos (by rw [hm]; exact h)]
  rw [hm]
  ext <;> simp [div_self h.ne']

@[simp] theorem Vector2D.magnitude_zero_vec : (⟨0, 0⟩ : Vector2D).magnitude = 0 := by
  simp [Vector2D.magnitude]

/-- The clamp pattern (used by `truncate` and inlined in `Boid::update`)
bounds the magnitude by a non-negative cap. -/
theorem truncate_magnitude_le (v : Vector3D) (m : ℝ) (hm : 0 ≤ m) :
    (truncate v m).magnitude ≤ m := by
  rw [truncate]
  by_cases h : v.magnitude > m
  · rw [if_pos h, Vector3D.magnitude_normalized_mul v m (lt_of_le_of_lt hm h) hm]
  · rw [if_neg h]
    exact le_of_not_lt h

theorem anyCast_eq_none_of_typeOf_ne (t : MemType) (v : MemValue)
    (h : v.typeOf ≠ t) : anyCast t v = none := by
  cases t <;> cases v <;> first
  | rfl
  | exact absurd rfl h

theorem anyCast_isSome_of_typeOf_eq (t : MemType) (v : MemValue)
    (h : v.typeOf = t) : ∃ w, anyCast t v = some w := by
  cases t <;> cases v <;> simp_all [MemValue.typeOf, anyCast]

/-- Membership in a rebuilt neighbor snapshot: any *other* index whose
distance is at most the radius (no positive-distance requirement). -/
theorem mem_neighborList (r : ℝ) (boids : List BoidState) (i j : ℕ) :
    j ∈ neighborList r boids i ↔
      j < boids.length ∧ j ≠ i ∧
      ((boids.getD i default).position - (boids.getD j default).position).magnitude ≤ r := by
  simp [neighborList, List.mem_filter, List.mem_range, and_assoc]

theorem crowdSnapshots_getD (c : CrowdState) (i : ℕ) (hi : i < c.boids.length) :
    (crowdSnapshots c).getD i [] = neighborList c.neighborRadius c.boids i := by
  simp [crowdSnapshots, List.getD, List.getElem?_map, List.getElem?_range, hi]

/-- C9: for every 2D or 3D vector of magnitude zero, `normalized()` returns
the zero vector (the dividing branch is never taken, so no NaN/∞ arises in
the real-valued model), and `magnitude()` is non-negative for every
vector. -/
theorem normalized_zero_and_magnitude_nonneg
    (v2 : Vector2D) (v3 : Vector3D) (w2 : Vector2D) (w3 : Vector3D)
    (h2 : v2.magnitude = 0) (h3 : v3.magnitude = 0) :
    0 ≤ w2.magnitude ∧ 0 ≤ w3.magnitude ∧
    v2.normalized = ⟨0, 0⟩ ∧ v3.normalized = ⟨0, 0, 0⟩ := by
  refine ⟨Real.sqrt_nonneg _, Real.sqrt_nonneg _, ?_, ?_⟩
  · rw [Vector2D.normalized, if_neg]
    rw [h2]
    exact lt_irrefl 0
  · rw [Vector3D.normalized, if_neg]
    rw [h3]
    exact lt_irrefl 0

/-- Witness for C9 at the concrete zero vectors. -/
theorem normalized_zero_and_magnitude_nonneg_witness :
    ((⟨0, 0⟩ : Vector2D).magnitude = 0 ∧ (⟨0, 0, 0⟩ : Vector3D).magnitude = 0) ∧
    (0 ≤ (⟨3, 4⟩ : Vector2D).magnitude ∧ 0 ≤ (⟨1, 2, 2⟩ : Vector3D).magnitude ∧
      (⟨0, 0⟩ : Vector2D).normalized = ⟨0, 0⟩ ∧
      (⟨0, 0, 0⟩ : Vector3D).normalized = ⟨0, 0, 0⟩) :=
  ⟨⟨Vector2D.magnitude_zero_vec, Vector3D.magnitude_zero⟩,
    normalized_zero_and_magnitude_nonneg ⟨0, 0⟩ ⟨0, 0, 0⟩ ⟨3, 4⟩ ⟨1, 2, 2⟩
      Vector2D.magnitude_zero_vec Vector3D.magnitude_zero⟩

/-- C1: under a non-negative force cap, one `SteeringController::update`
leaves `|velocity| ≤ maxSpeed` whenever the pre-call velocity satisfied the
bound, the composed force actually integrated (the truncated total) has
magnitude at most `maxForce`, and one `Boid::update` likewise keeps
`|velocity| ≤ 8`, the fixed speed cap of the flocking path (which has no
force cap of its own). -/
theorem update_speed_and_force_bounds
    (maxSpeed maxForce deltaTime : ℝ) (behaviors : List Behavior) (agent : Agent)
    (b : BoidState) (neighbors : List BoidState) (dt2 : ℝ)
    (hpre : agent.velocity.magnitude ≤ maxSpeed)
    (hforce : 0 ≤ maxForce)
    (hb : b.velocity.magnitude ≤ 8) :
    (steeringUpdate maxSpeed maxForce deltaTime behaviors agent).velocity.magnitude
        ≤ maxSpeed ∧
    (truncate (composeForce behaviors) maxForce).magnitude ≤ maxForce ∧
    (boidUpdate b neighbors dt2).velocity.magnitude ≤ 8 := by
  have hms : 0 ≤ maxSpeed := le_trans (Vector3D.magnitude_nonneg _) hpre
  refine ⟨?_, truncate_magnitude_le _ _ hforce, ?_⟩
  · have hv : (steeringUpdate maxSpeed maxForce deltaTime behaviors agent).velocity
        = truncate
            (agent.velocity + (truncate (composeForce behaviors) maxForce).mul deltaTime)
            maxSpeed := rfl
    rw [hv]
    exact truncate_magnitude_le _ _ hms
  · have hv : (boidUpdate b neighbors dt2).velocity
        = truncate
            (b.velocity +
              ((Boid.calculateSeparation b neighbors).mul b.separationWeight +
               (Boid.calculateAlignment b neighbors).mul b.alignmentWeight +
               (Boid.calculateCohesion b neighbors).mul b.cohesionWeight).mul dt2)
            8 := rfl
    rw [hv]
    exact truncate_magnitude_le _ _ (by norm_num)

/-- Witness for C1 at a concrete controller and boid call. -/
theorem update_speed_and_force_bounds_witness :
    ((⟨⟨0, 0, 0⟩, ⟨0, 0, 0⟩⟩ : Agent).velocity.magnitude ≤ 10 ∧ (0:ℝ) ≤ 5 ∧
      ({ position := ⟨0, 0, 0⟩, velocity := ⟨0, 0, 0⟩ } : BoidState).velocity.magnitude ≤ 8) ∧
    ((steeringUpdate 10 5 (1/10) [] ⟨⟨0, 0, 0⟩, ⟨0, 0, 0⟩⟩).velocity.magnitude ≤ 10 ∧
      (truncate (composeForce []) 5).magnitude ≤ 5 ∧
      (boidUpdate { position := ⟨0, 0, 0⟩, velocity := ⟨0, 0, 0⟩ } [] (1/10)).velocity.magnitude
        ≤ 8) := by
  have h1 : (⟨⟨0, 0, 0⟩, ⟨0, 0, 0⟩⟩ : Agent).velocity.magnitude ≤ 10 := by
    simp
  have h3 : ({ position := ⟨0, 0, 0⟩, velocity := ⟨0, 0, 0⟩ } : BoidState).velocity.magnitude
      ≤ 8 := by
    simp
  exact ⟨⟨h1, by norm_num, h3⟩,
    update_speed_and_force_bounds 10 5 (1/10) [] ⟨⟨0, 0, 0⟩, ⟨0, 0, 0⟩⟩
      { position := ⟨0, 0, 0⟩, velocity := ⟨0, 0, 0⟩ } [] (1/10) h1 (by norm_num) h3⟩

/-- C3: within one `CrowdSimulation::update` tick every snapshot is the
`neighborList` of the pre-tick population (the rebuild loop finishes before
the movement loop starts), and that relation is symmetric: boid `j` is in
boid `i`'s snapshot exactly when `i` is in `j`'s. -/
theorem snapshot_symmetric (c : CrowdState) (i j : ℕ)
    (hi : i < c.boids.length) (hj : j < c.boids.length) :
    (crowdSnapshots c).getD i [] = neighborList c.neighborRadius c.boids i ∧
    (j ∈ (crowdSnapshots c).getD i [] ↔ i ∈ (crowdSnapshots c).getD j []) := by
  refine ⟨crowdSnapshots_getD c i hi, ?_⟩
  rw [crowdSnapshots_getD c i hi, crowdSnapshots_getD c j hj,
    mem_neighborList, mem_neighborList]
  constructor
  · rintro ⟨-, hne, hd⟩
    exact ⟨hi, hne.symm, by rwa [Vector3D.magnitude_sub_comm]⟩
  · rintro ⟨-, hne, hd⟩
    exact ⟨hj, hne.symm, by rwa [Vector3D.magnitude_sub_comm]⟩

/-- C4 amended: the rebuild includes index `j` in boid `i`'s snapshot iff
`j` is another in-range index with `distance ≤ neighborRadius`; a distinct
boid at distance 0 is included (only the boid itself is excluded, by
identity, not by distance). -/
theorem neighborList_characterization (r : ℝ) (boids : List BoidState) (i j : ℕ) :
    j ∈ neighborList r boids i ↔
      j < boids.length ∧ j ≠ i ∧
      ((boids.getD i default).position - (boids.getD j default).position).magnitude ≤ r :=
  mem_neighborList r boids i j

/-- Witness for C3 on a concrete two-boid population. -/
theorem snapshot_symmetric_witness :
    (0 < twoBoidCrowd.boids.length ∧ 1 < twoBoidCrowd.boids.length) ∧
    ((crowdSnapshots twoBoidCrowd).getD 0 []
        = neighborList twoBoidCrowd.neighborRadius twoBoidCrowd.boids 0 ∧
     (1 ∈ (crowdSnapshots twoBoidCrowd).getD 0 [] ↔
        0 ∈ (crowdSnapshots twoBoidCrowd).getD 1 [])) :=
  ⟨⟨by norm_num [twoBoidCrowd], by norm_num [twoBoidCrowd]⟩,
    snapshot_symmetric twoBoidCrowd 0 1 (by norm_num [twoBoidCrowd])
      (by norm_num [twoBoidCrowd])⟩

/-- C4 counterexample: two distinct boids at the same position, radius 10 —
boid 1 *is* in boid 0's rebuilt snapshot even though their distance is 0,
because `findNeighbors` excludes only the boid itself (pointer identity)
and tests `distance <= neighborRadius_` with no positive lower bound. -/
theorem neighborList_includes_coincident :
    1 ∈ neighborList 10 coincidentPair 0 ∧
    ((coincidentPair.getD 0 default).position -
      (coincidentPair.getD 1 default).position).magnitude = 0 := by
  constructor
  · rw [mem_neighborList]
    refine ⟨by norm_num [coincidentPair], by norm_num, ?_⟩
    simp [coincidentPair, List.getD]
  · simp [coincidentPair, List.getD]

theorem calculateSeparation_nil (b : BoidState) :
    Boid.calculateSeparation b [] = ⟨0, 0, 0⟩ := by
  simp [Boid.calculateSeparation]

theorem calculateAlignment_nil (b : BoidState) :
    Boid.calculateAlignment b [] = ⟨0, 0, 0⟩ := by
  simp [Boid.calculateAlignment]

theorem calculateCohesion_nil (b : BoidState) :
    Boid.calculateCohesion b [] = ⟨0, 0, 0⟩ := by
  simp [Boid.calculateCohesion]

/-- `Boid::update` with an empty snapshot and an in-cap velocity: the
velocity survives the clamp and the position advances by `velocity * dt`. -/
theorem boidUpdate_nil (b : BoidState) (deltaTime : ℝ)
    (h : ¬b.velocity.magnitude > 8) :
    boidUpdate b [] deltaTime = { b with position := b.position + b.velocity.mul deltaTime } := by
  rw [boidUpdate, calculateSeparation_nil, calculateAlignment_nil, calculateCohesion_nil]
  simp only [Vector3D.zero_vec_mul, Vector3D.add_zero_vec, Vector3D.zero_vec_add]
  rw [if_neg h]

/-- One `CrowdSimulation::update` tick over a single boid: the snapshot is
empty, so the tick is `applyBoundaryForces ∘ boidUpdate` with no
neighbors. -/
theorem crowdUpdate_single (c : CrowdState) (b : BoidState) (deltaTime : ℝ)
    (h : c.boids = [b]) :
    (crowdUpdate c deltaTime).boids
      = [applyBoundaryForces c.boundaryMin c.boundaryMax (boidUpdate b [] deltaTime)] := by
  have r1 : List.range 1 = [0] := rfl
  rw [crowdUpdate]
  simp only [h, crowdSnapshots, List.length_cons, List.length_nil, r1]
  simp [neighborList, List.getD, List.filter, r1]

/-- C2 counterexample: a stationary boid at exactly
`boundaryMin.x + margin` gets *no* containment force (the code tests
`position.x < boundaryMin_.x + margin` strictly), so after one tick with
`deltaTime = 0.1` its velocity is still zero, not the documented inward
`forceStrength * 0.016 = 0.32`. -/
theorem boundary_tick_at_exact_margin :
    ((crowdUpdate exactMarginCrowd (1/10)).boids.getD 0 default).velocity = ⟨0, 0, 0⟩ ∧
    (20 * (0.016 : ℝ) ≠ 0) := by
  constructor
  · rw [crowdUpdate_single exactMarginCrowd
        { position := ⟨-45, 0, 0⟩, velocity := ⟨0, 0, 0⟩ } (1/10) rfl]
    rw [boidUpdate_nil _ _ (by simp)]
    norm_num [applyBoundaryForces, boundaryForce, exactMarginCrowd, List.getD]
  · norm_num

/-- C2 amended: a boid *strictly* inside the margin of the minimum
boundary on an axis gets the fixed `+20` force component on that axis
(`-20` strictly inside the maximum margin); the non-zero combined force is
added to the velocity scaled by the hardcoded `0.016` rather than
`deltaTime`, after the movement step — so a stationary boid strictly
inside the margin (here at x = -48) ends one `deltaTime = 0.1` tick with
its x-velocity moved inward by exactly `20 * 0.016 = 0.32`.  At exactly
boundary-min-plus-margin no force applies (strict comparison). -/
theorem boundary_force_inside_margin
    (bmin bmax p q : Vector3D)
    (h1 : p.x < bmin.x + 5) (h2 : ¬p.x > bmax.x - 5)
    (h3 : q.x > bmax.x - 5) (h4 : ¬q.x < bmin.x + 5) :
    (boundaryForce bmin bmax p).x = 20 ∧
    (boundaryForce bmin bmax q).x = -20 ∧
    ((crowdUpdate insideMarginCrowd (1/10)).boids.getD 0 default).velocity
      = ⟨20 * 0.016, 0, 0⟩ := by
  refine ⟨?_, ?_, ?_⟩
  · simp only [boundaryForce]
    rw [if_neg h2, if_pos h1]
    norm_num
  · simp only [boundaryForce]
    rw [if_pos h3, if_neg h4]
    norm_num
  · rw [crowdUpdate_single insideMarginCrowd
        { position := ⟨-48, 0, 0⟩, velocity := ⟨0, 0, 0⟩ } (1/10) rfl]
    rw [boidUpdate_nil _ _ (by simp)]
    norm_num [applyBoundaryForces, boundaryForce, insideMarginCrowd, List.getD,
      Vector3D.magnitude_mk_x]

/-- Witness for the amended C2 at concrete boundary data. -/
theorem boundary_force_inside_margin_witness :
    (((2:ℝ) < 0 + 5) ∧ ¬((2:ℝ) > 100 - 5) ∧ ((98:ℝ) > 100 - 5) ∧ ¬((98:ℝ) < 0 + 5)) ∧
    ((boundaryForce ⟨0, 0, 0⟩ ⟨100, 100, 100⟩ ⟨2, 0, 0⟩).x = 20 ∧
     (boundaryForce ⟨0, 0, 0⟩ ⟨100, 100, 100⟩ ⟨98, 0, 0⟩).x = -20 ∧
     ((crowdUpdate insideMarginCrowd (1/10)).boids.getD 0 default).velocity
       = ⟨20 * 0.016, 0, 0⟩) :=
  ⟨⟨by norm_num, by norm_num, by norm_num, by norm_num⟩,
    boundary_force_inside_margin ⟨0, 0, 0⟩ ⟨100, 100, 100⟩ ⟨2, 0, 0⟩ ⟨98, 0, 0⟩
      (by norm_num) (by norm_num) (by norm_num) (by norm_num)⟩

/-- C8 amended: for a boid with an empty neighbor snapshot whose current
speed does not exceed the fixed cap 8, one `Boid::update` computes zero
separation/alignment/cohesion forces, leaves the velocity unchanged, and
advances the position by exactly `velocity * deltaTime`.  (Without the
speed hypothesis the inline clamp rescales an over-cap velocity to
magnitude 8, so "velocity unchanged" would fail.) -/
theorem lone_boid_update (b : BoidState) (deltaTime : ℝ)
    (h : b.velocity.magnitude ≤ 8) :
    Boid.calculateSeparation b [] = ⟨0, 0, 0⟩ ∧
    Boid.calculateAlignment b [] = ⟨0, 0, 0⟩ ∧
    Boid.calculateCohesion b [] = ⟨0, 0, 0⟩ ∧
    (boidUpdate b [] deltaTime).velocity = b.velocity ∧
    (boidUpdate b [] deltaTime).position = b.position + b.velocity.mul deltaTime := by
  rw [boidUpdate_nil b deltaTime (not_lt.mpr h)]
  exact ⟨calculateSeparation_nil b, calculateAlignment_nil b, calculateCohesion_nil b,
    rfl, rfl⟩

/-- Witness for the amended C8 at a concrete in-cap boid. -/
theorem lone_boid_update_witness :
    (({ position := ⟨1, 2, 3⟩, velocity := ⟨1, 0, 0⟩ } : BoidState).velocity.magnitude ≤ 8) ∧
    (Boid.calculateSeparation { position := ⟨1, 2, 3⟩, velocity := ⟨1, 0, 0⟩ } [] = ⟨0, 0, 0⟩ ∧
     Boid.calculateAlignment { position := ⟨1, 2, 3⟩, velocity := ⟨1, 0, 0⟩ } [] = ⟨0, 0, 0⟩ ∧
     Boid.calculateCohesion { position := ⟨1, 2, 3⟩, velocity := ⟨1, 0, 0⟩ } [] = ⟨0, 0, 0⟩ ∧
     (boidUpdate { position := ⟨1, 2, 3⟩, velocity := ⟨1, 0, 0⟩ } [] (1/2)).velocity
        = ⟨1, 0, 0⟩ ∧
     (boidUpdate { position := ⟨1, 2, 3⟩, velocity := ⟨1, 0, 0⟩ } [] (1/2)).position
        = ⟨1, 2, 3⟩ + (⟨1, 0, 0⟩ : Vector3D).mul (1/2)) :=
  ⟨by norm_num [Vector3D.magnitude_mk_x],
    lone_boid_update { position := ⟨1, 2, 3⟩, velocity := ⟨1, 0, 0⟩ } (1/2)
      (by norm_num [Vector3D.magnitude_mk_x])⟩

/-- C8 counterexample: a lone boid whose velocity has magnitude 9 does
*not* keep its velocity through `Boid::update` — the inline speed clamp
rescales it to magnitude 8 even though the neighbor snapshot is empty and
all flocking forces are zero. -/
theorem lone_boid_overspeed_clamped :
    (boidUpdate { position := ⟨0, 0, 0⟩, velocity := ⟨9, 0, 0⟩ } [] 1).velocity
      = ⟨8, 0, 0⟩ ∧
    (⟨8, 0, 0⟩ : Vector3D) ≠ ⟨9, 0, 0⟩ := by
  constructor
  · have h9 : ((⟨9, 0, 0⟩ : Vector3D)).magnitude > 8 := by
      rw [Vector3D.magnitude_mk_x]
      norm_num
    rw [boidUpdate, calculateSeparation_nil, calculateAlignment_nil, calculateCohesion_nil]
    simp only [Vector3D.zero_vec_mul, Vector3D.add_zero_vec, Vector3D.zero_vec_add]
    rw [if_pos h9, Vector3D.normalized_mk_x 9 (by norm_num)]
    norm_num
  · norm_num [Vector3D.mk.injEq]

/-- Cauchy–Schwarz for the 3D dot product of the vector kernel. -/
theorem Vector3D.abs_dot_le (u w : Vector3D) :
    |u.dot w| ≤ u.magnitude * w.magnitude := by
  have key : (u.dot w) * (u.dot w)
      ≤ (u.x * u.x + u.y * u.y + u.z * u.z) * (w.x * w.x + w.y * w.y + w.z * w.z) := by
    simp only [Vector3D.dot]
    nlinarith [sq_nonneg (u.x * w.y - u.y * w.x), sq_nonneg (u.x * w.z - u.z * w.x),
      sq_nonneg (u.y * w.z - u.z * w.y)]
  have habs : |u.dot w| = Real.sqrt ((u.dot w) * (u.dot w)) := by
    rw [show (u.dot w) * (u.dot w) = (u.dot w) ^ 2 by ring, Real.sqrt_sq_eq_abs]
  rw [habs, Vector3D.magnitude, Vector3D.magnitude,
    ← Real.sqrt_mul (by nlinarith [sq_nonneg u.x, sq_nonneg u.y, sq_nonneg u.z])]
  exact Real.sqrt_le_sqrt key

theorem foldl_step_bounded (f : ℝ → BoidState → ℝ)
    (hf : ∀ acc b, acc ≤ f acc b ∧ f acc b ≤ acc + 1) :
    ∀ (l : List BoidState) (acc : ℝ),
      acc ≤ l.foldl f acc ∧ l.foldl f acc ≤ acc + l.length := by
  intro l
  induction l with
  | nil => intro acc; simp
  | cons b t ih =>
    intro acc
    have h1 := hf acc b
    have h2 := ih (f acc b)
    have hlen : ((b :: t).length : ℝ) = (t.length : ℝ) + 1 := by
      push_cast [List.length_cons]
      ring
    constructor
    · exact le_trans h1.1 h2.1
    · calc (b :: t).foldl f acc = t.foldl f (f acc b) := rfl
        _ ≤ f acc b + t.length := h2.2
        _ ≤ acc + 1 + t.length := by linarith [h1.2]
        _ = acc + ((t.length : ℝ) + 1) := by ring
        _ = acc + (b :: t).length := by rw [hlen]

theorem foldl_add_le (g : BoidState → ℝ) (hg : ∀ b, 0 ≤ g b) :
    ∀ (l : List BoidState) (acc : ℝ),
      acc ≤ l.foldl (fun (a : ℝ) b => a + g b) acc := by
  intro l
  induction l with
  | nil => intro acc; simp
  | cons b t ih =>
    intro acc
    calc acc ≤ acc + g b := by linarith [hg b]
      _ ≤ t.foldl (fun (a : ℝ) b => a + g b) (acc + g b) := ih (acc + g b)
      _ = (b :: t).foldl (fun (a : ℝ) b => a + g b) acc := rfl

theorem detectorAvgDistance_nonneg (boids : List BoidState) :
    0 ≤ detectorAvgDistance boids := by
  rw [detectorAvgDistance]
  apply div_nonneg _ (Nat.cast_nonneg _)
  exact foldl_add_le (fun b => (b.position - detectorCenter boids).magnitude)
    (fun b => Vector3D.magnitude_nonneg _) boids 0

theorem detectorAvgSpeed_nonneg (boids : List BoidState) :
    0 ≤ detectorAvgSpeed boids := by
  rw [detectorAvgSpeed]
  apply div_nonneg _ (Nat.cast_nonneg _)
  exact foldl_add_le (fun b => b.velocity.magnitude)
    (fun b => Vector3D.magnitude_nonneg _) boids 0

theorem detectorTotalAlignment_bounds (boids : List BoidState) :
    0 ≤ detectorTotalAlignment boids ∧
    detectorTotalAlignment boids ≤ boids.length := by
  have hstep : ∀ (acc : ℝ) (b : BoidState),
      acc ≤ (if b.velocity.magnitude > 0 ∧ (detectorAvgVelocity boids).magnitude > 0 then
        acc + (((b.velocity.normalized).dot ((detectorAvgVelocity boids).normalized) + 1) / 2)
      else acc) ∧
      (if b.velocity.magnitude > 0 ∧ (detectorAvgVelocity boids).magnitude > 0 then
        acc + (((b.velocity.normalized).dot ((detectorAvgVelocity boids).normalized) + 1) / 2)
      else acc) ≤ acc + 1 := by
    intro acc b
    by_cases hg : b.velocity.magnitude > 0 ∧ (detectorAvgVelocity boids).magnitude > 0
    · rw [if_pos hg]
      have hd : |((b.velocity.normalized).dot ((detectorAvgVelocity boids).normalized))| ≤ 1 := by
        have := Vector3D.abs_dot_le (b.velocity.normalized)
          ((detectorAvgVelocity boids).normalized)
        rwa [Vector3D.magnitude_normalized _ hg.1, Vector3D.magnitude_normalized _ hg.2,
          mul_one] at this
      rw [abs_le] at hd
      constructor <;> linarith [hd.1, hd.2]
    · rw [if_neg hg]
      exact ⟨le_refl acc, by linarith⟩
  obtain ⟨h1, h2⟩ := foldl_step_bounded _ hstep boids 0
  constructor
  · rw [detectorTotalAlignment]
    exact h1
  · rw [detectorTotalAlignment]
    linarith [h2]

/-- C5 amended: for populations of at least 3 boids, the alignment and
cohesion metrics of `EmergentBehaviorDetector` lie in `[0,1]`; the
normalized velocity variance is non-negative but is *not* bounded by 1. -/
theorem detector_metric_bounds (boids : List BoidState) (h : 3 ≤ boids.length) :
    (0 ≤ calculateAlignmentLevel boids ∧ calculateAlignmentLevel boids ≤ 1) ∧
    (0 ≤ calculateCohesionLevel boids ∧ calculateCohesionLevel boids ≤ 1) ∧
    0 ≤ calculateVelocityVariance boids := by
  have hne : boids ≠ [] := by
    intro e
    rw [e] at h
    simp at h
  have hE : ¬boids.isEmpty = true := by
    simp [List.isEmpty_iff, hne]
  have hn : (0:ℝ) < boids.length := by
    have : 0 < boids.length := by omega
    exact_mod_cast this
  refine ⟨?_, ?_, ?_⟩
  · rw [calculateAlignmentLevel, if_neg hE]
    have hb := detectorTotalAlignment_bounds boids
    constructor
    · exact div_nonneg hb.1 (le_of_lt hn)
    · rw [div_le_one hn]
      exact hb.2
  · rw [calculateCohesionLevel, if_neg hE]
    have ha := detectorAvgDistance_nonneg boids
    have hd : (1:ℝ) ≤ 1 + detectorAvgDistance boids * 0.1 := by nlinarith
    constructor
    · apply div_nonneg (by norm_num)
      linarith
    · rw [div_le_one (by linarith)]
      exact hd
  · rw [calculateVelocityVariance, if_neg hE]
    apply div_nonneg (Real.sqrt_nonneg _)
    have := detectorAvgSpeed_nonneg boids
    linarith

/-- Witness for the amended C5 at a concrete 3-boid population. -/
theorem detector_metric_bounds_witness :
    3 ≤ unevenSpeedBoids.length ∧
    ((0 ≤ calculateAlignmentLevel unevenSpeedBoids ∧
        calculateAlignmentLevel unevenSpeedBoids ≤ 1) ∧
     (0 ≤ calculateCohesionLevel unevenSpeedBoids ∧
        calculateCohesionLevel unevenSpeedBoids ≤ 1) ∧
     0 ≤ calculateVelocityVariance unevenSpeedBoids) :=
  ⟨by norm_num [unevenSpeedBoids],
    detector_metric_bounds unevenSpeedBoids (by norm_num [unevenSpeedBoids])⟩

theorem detectorAvgSpeed_uneven : detectorAvgSpeed unevenSpeedBoids = 10 := by
  rw [detectorAvgSpeed]
  norm_num [unevenSpeedBoids, List.foldl, Vector3D.magnitude_mk_x]

/-- C5 counterexample: with speeds (0, 0, 30) the "normalized" velocity
variance is `sqrt(200) / 10.1 ≈ 1.4 > 1` — the third detector metric is
not confined to `[0,1]`. -/
theorem velocity_variance_exceeds_one :
    1 < calculateVelocityVariance unevenSpeedBoids := by
  have hvar : detectorVariance unevenSpeedBoids = 200 := by
    rw [detectorVariance, detectorAvgSpeed_uneven]
    norm_num [unevenSpeedBoids, List.foldl, Vector3D.magnitude_mk_x]
  have hE : ¬unevenSpeedBoids.isEmpty = true := by
    simp [unevenSpeedBoids]
  rw [calculateVelocityVariance, if_neg hE, hvar, detectorAvgSpeed_uneven]
  rw [show (10:ℝ) + 0.1 = 10.1 by norm_num]
  rw [one_lt_div (by norm_num : (0:ℝ) < 10.1)]
  rw [show (10.1:ℝ) = |10.1| by rw [abs_of_pos]; norm_num]
  rw [← Real.sqrt_sq_eq_abs]
  apply Real.sqrt_lt_sqrt (by positivity)
  norm_num

/-- C6 (bug evidence): with the agent exactly at a registered obstacle's
position, the obstacle loop of `AvoidanceBehavior::calculate` takes its
branch (`distance < totalRadius + avoidanceRadius` holds at distance 0)
and evaluates `(totalRadius + avoidanceRadius) / distance` with a zero
divisor.  In C++ float arithmetic this is `6.0f / 0.0f = inf`, and
`normalized() * inf` multiplies the zero vector by infinity, yielding NaN
components; the real-valued model (where `x / 0 = 0`) masks this and
returns the zero vector, evaluated in the second conjunct. -/
theorem avoidance_coincident_obstacle_divides_by_zero :
    avoidanceDividesByZero 4 [{ position := ⟨0, 0, 0⟩, radius := 1 }]
      ⟨⟨0, 0, 0⟩, ⟨0, 0, 0⟩⟩ ∧
    AvoidanceBehavior.calculate 4 [{ position := ⟨0, 0, 0⟩, radius := 1 }]
      ⟨⟨0, 0, 0⟩, ⟨0, 0, 0⟩⟩ [] = ⟨0, 0, 0⟩ := by
  constructor
  · refine ⟨{ position := ⟨0, 0, 0⟩, radius := 1 }, by simp, ?_, ?_⟩
    · simp
    · simp
      norm_num
  · norm_num [AvoidanceBehavior.calculate, List.foldl, Vector3D.normalized]

/-- C10: `Agent::getMemory<T>(key, default)` returns the stored value when
the key is present and holds exactly type `T`, and the supplied default
both when the key is absent and when the stored value has a different
dynamic type; it is a total pure function of the (const) memory store, so
it never throws and never modifies it. -/
theorem getMemory_cases (t : MemType) (m1 m2 m3 : Memory)
    (k1 k2 k3 : String) (d1 d2 d3 : t.denote)
    (v : MemValue) (x : t.denote) (w : MemValue)
    (h1 : List.lookup k1 m1 = some v) (h1c : anyCast t v = some x)
    (h2 : List.lookup k2 m2 = none)
    (h3 : List.lookup k3 m3 = some w) (h3t : w.typeOf ≠ t) :
    Agent.getMemory t m1 k1 d1 = x ∧
    Agent.getMemory t m2 k2 d2 = d2 ∧
    Agent.getMemory t m3 k3 d3 = d3 := by
  refine ⟨?_, ?_, ?_⟩
  · simp [Agent.getMemory, h1, h1c]
  · simp [Agent.getMemory, h2]
  · simp [Agent.getMemory, h3, anyCast_eq_none_of_typeOf_ne t w h3t]

/-- Witness for C10 on a concrete store. -/
theorem getMemory_cases_witness :
    (List.lookup "hp" [("hp", MemValue.intVal 5)] = some (MemValue.intVal 5) ∧
     anyCast MemType.tInt (MemValue.intVal 5) = some (5 : Int) ∧
     List.lookup "xp" ([] : Memory) = none ∧
     List.lookup "name" [("name", MemValue.strVal "a")] = some (MemValue.strVal "a") ∧
     (MemValue.strVal "a").typeOf ≠ MemType.tInt) ∧
    (Agent.getMemory MemType.tInt [("hp", MemValue.intVal 5)] "hp" (0 : Int) = (5 : Int) ∧
     Agent.getMemory MemType.tInt ([] : Memory) "xp" (0 : Int) = (0 : Int) ∧
     Agent.getMemory MemType.tInt [("name", MemValue.strVal "a")] "name" (7 : Int) = (7 : Int)) := by
  have l1 : List.lookup "hp" [("hp", MemValue.intVal 5)] = some (MemValue.intVal 5) := by
    simp [List.lookup]
  have l2 : List.lookup "xp" ([] : Memory) = none := rfl
  have l3 : List.lookup "name" [("name", MemValue.strVal "a")] = some (MemValue.strVal "a") := by
    simp [List.lookup]
  have ht : (MemValue.strVal "a").typeOf ≠ MemType.tInt := by
    simp [MemValue.typeOf]
  exact ⟨⟨l1, rfl, l2, l3, ht⟩,
    getMemory_cases MemType.tInt [("hp", MemValue.intVal 5)] [] [("name", MemValue.strVal "a")]
      "hp" "xp" "name" (0 : Int) (0 : Int) (7 : Int) (MemValue.intVal 5) (5 : Int)
      (MemValue.strVal "a") l1 rfl l2 l3 ht⟩

theorem sepStepCtrl_eq_sepStepBoid (r : ℝ) (a : Agent) (acc : Vector3D × ℕ) (n : Agent) :
    sepStepCtrl r a acc n = sepStepBoid (a.asBoid r) acc (n.asBoid r) := by
  rw [sepStepCtrl, sepStepBoid]
  by_cases he : n = a
  · rw [if_pos he, he]
    have hz : ((a.asBoid r).position - (a.asBoid r).position).magnitude = 0 := by
      rw [Vector3D.sub_self_vec, Vector3D.magnitude_zero]
    rw [if_neg]
    rw [hz]
    intro hc
    exact lt_irrefl 0 hc.1
  · rw [if_neg he]
    simp only [Agent.asBoid]

theorem sep_fold_eq (r : ℝ) (a : Agent) (ns : List Agent) (acc : Vector3D × ℕ) :
    ns.foldl (sepStepCtrl r a) acc
      = (ns.map (fun n => Agent.asBoid n r)).foldl (sepStepBoid (a.asBoid r)) acc := by
  induction ns generalizing acc with
  | nil => rfl
  | cons n t ih =>
    calc (n :: t).foldl (sepStepCtrl r a) acc
        = t.foldl (sepStepCtrl r a) (sepStepCtrl r a acc n) := rfl
      _ = (t.map (fun n => Agent.asBoid n r)).foldl (sepStepBoid (a.asBoid r))
            (sepStepCtrl r a acc n) := ih _
      _ = (t.map (fun n => Agent.asBoid n r)).foldl (sepStepBoid (a.asBoid r))
            (sepStepBoid (a.asBoid r) acc (n.asBoid r)) := by
          rw [sepStepCtrl_eq_sepStepBoid]
      _ = ((n :: t).map (fun n => Agent.asBoid n r)).foldl (sepStepBoid (a.asBoid r)) acc := rfl

theorem sepStepCtrl_of_not_qualifies (r : ℝ) (a : Agent) (acc : Vector3D × ℕ) (n : Agent)
    (h : ¬qualifiesForSeparation r a n) : sepStepCtrl r a acc n = acc := by
  rw [sepStepCtrl]
  by_cases he : n = a
  · rw [if_pos he]
  · rw [if_neg he, if_neg]
    exact h

theorem sep_fold_of_no_qualifies (r : ℝ) (a : Agent) (ns : List Agent)
    (h : ∀ n ∈ ns, ¬qualifiesForSeparation r a n) :
    ∀ acc : Vector3D × ℕ, ns.foldl (sepStepCtrl r a) acc = acc := by
  induction ns with
  | nil => intro acc; rfl
  | cons n t ih =>
    intro acc
    have hn := h n (List.mem_cons_self n t)
    have ht : ∀ n ∈ t, ¬qualifiesForSeparation r a n :=
      fun m hm => h m (List.mem_cons_of_mem n hm)
    calc (n :: t).foldl (sepStepCtrl r a) acc
        = t.foldl (sepStepCtrl r a) (sepStepCtrl r a acc n) := rfl
      _ = t.foldl (sepStepCtrl r a) acc := by rw [sepStepCtrl_of_not_qualifies r a acc n hn]
      _ = acc := ih ht acc

theorem sep_fold_count_mono (r : ℝ) (a : Agent) (ns : List Agent) :
    ∀ acc : Vector3D × ℕ, acc.2 ≤ (ns.foldl (sepStepCtrl r a) acc).2 := by
  induction ns with
  | nil => intro acc; exact le_refl _
  | cons n t ih =>
    intro acc
    refine le_trans ?_ (ih (sepStepCtrl r a acc n))
    rw [sepStepCtrl]
    by_cases he : n = a
    · rw [if_pos he]
    · rw [if_neg he]
      by_cases hq : (a.position - n.position).magnitude > 0 ∧
          (a.position - n.position).magnitude < r
      · rw [if_pos hq]
        exact Nat.le_succ _
      · rw [if_neg hq]

theorem sep_fold_count_pos (r : ℝ) (a : Agent) (ns : List Agent)
    (h : ∃ n ∈ ns, qualifiesForSeparation r a n) :
    ∀ acc : Vector3D × ℕ, 0 < (ns.foldl (sepStepCtrl r a) acc).2 := by
  induction ns with
  | nil =>
    obtain ⟨n, hn, -⟩ := h
    exact absurd hn (List.not_mem_nil n)
  | cons n t ih =>
    intro acc
    obtain ⟨m, hm, hq⟩ := h
    rcases List.mem_cons.mp hm with he | ht
    · have hna : ¬n = a := by
        intro hc
        have hz : (a.position - m.position).magnitude = 0 := by
          rw [he, hc, Vector3D.sub_self_vec, Vector3D.magnitude_zero]
        have h1 := hq.1
        rw [hz] at h1
        exact lt_irrefl 0 h1
      have hstep : (sepStepCtrl r a acc n).2 = acc.2 + 1 := by
        rw [sepStepCtrl, if_neg hna, if_pos]
        rw [← he]
        exact ⟨hq.1, hq.2⟩
      have := sep_fold_count_mono r a t (sepStepCtrl r a acc n)
      calc 0 < acc.2 + 1 := Nat.succ_pos _
        _ = (sepStepCtrl r a acc n).2 := hstep.symm
        _ ≤ ((n :: t).foldl (sepStepCtrl r a) acc).2 := this
    · exact ih ⟨m, ht, hq⟩ (sepStepCtrl r a acc n)

/-- C7: the two separation implementations differ by exactly one velocity
subtraction.  With at least one qualifying neighbor
(`0 < distance < separation radius`), the controller variant returns the
Boid variant's vector minus the agent's current velocity; with no
qualifying neighbor both return the zero vector. -/
theorem separation_variants_related (r : ℝ) (a : Agent) (ns : List Agent) :
    ((∃ n ∈ ns, qualifiesForSeparation r a n) →
      SeparationBehavior.calculate r a ns
        = Boid.calculateSeparation (a.asBoid r) (ns.map (fun n => Agent.asBoid n r))
            - a.velocity) ∧
    ((∀ n ∈ ns, ¬qualifiesForSeparation r a n) →
      SeparationBehavior.calculate r a ns = ⟨0, 0, 0⟩ ∧
      Boid.calculateSeparation (a.asBoid r) (ns.map (fun n => Agent.asBoid n r))
        = ⟨0, 0, 0⟩) := by
  rw [SeparationBehavior.calculate, Boid.calculateSeparation, ← sep_fold_eq r a ns]
  constructor
  · intro h
    rw [if_pos (sep_fold_count_pos r a ns h _), if_pos (sep_fold_count_pos r a ns h _)]
  · intro h
    rw [sep_fold_of_no_qualifies r a ns h]
    rw [if_neg (lt_irrefl 0), if_neg (lt_irrefl 0)]
    exact ⟨rfl, rfl⟩

/-- Witness for C7: one qualifying neighbor (first branch) exercised at a
concrete input. -/
theorem separation_variants_related_witness :
    (∃ n ∈ [(⟨⟨1, 0, 0⟩, ⟨0, 0, 0⟩⟩ : Agent)],
        qualifiesForSeparation 3 ⟨⟨0, 0, 0⟩, ⟨5, 0, 0⟩⟩ n) ∧
    SeparationBehavior.calculate 3 ⟨⟨0, 0, 0⟩, ⟨5, 0, 0⟩⟩ [⟨⟨1, 0, 0⟩, ⟨0, 0, 0⟩⟩]
      = Boid.calculateSeparation ((⟨⟨0, 0, 0⟩, ⟨5, 0, 0⟩⟩ : Agent).asBoid 3)
          ([(⟨⟨1, 0, 0⟩, ⟨0, 0, 0⟩⟩ : Agent)].map (fun n => Agent.asBoid n 3))
          - (⟨⟨0, 0, 0⟩, ⟨5, 0, 0⟩⟩ : Agent).velocity := by
  have hq : qualifiesForSeparation 3 ⟨⟨0, 0, 0⟩, ⟨5, 0, 0⟩⟩ ⟨⟨1, 0, 0⟩, ⟨0, 0, 0⟩⟩ := by
    rw [qualifiesForSeparation]
    norm_num [Vector3D.magnitude_mk_x]
  have hex : ∃ n ∈ [(⟨⟨1, 0, 0⟩, ⟨0, 0, 0⟩⟩ : Agent)],
      qualifiesForSeparation 3 ⟨⟨0, 0, 0⟩, ⟨5, 0, 0⟩⟩ n :=
    ⟨_, List.mem_singleton.mpr rfl, hq⟩
  exact ⟨hex,
    (separation_variants_related 3 ⟨⟨0, 0, 0⟩, ⟨5, 0, 0⟩⟩ [⟨⟨1, 0, 0⟩, ⟨0, 0, 0⟩⟩]).1 hex⟩
